/-
Verification of `scripts/train_lora.py` (shammah repository).

Shallow embedding conventions:
  * A JSON scalar stored in the optional `weight` field is modelled by `JVal`
    (a number, embedded as a rational, or a non-numeric value such as a string).
    Python floats are embedded as rationals: every claim under scrutiny is about
    comparisons, defaults and exact arithmetic on small literals, none about
    rounding.
  * A line of the queue file is modelled by its parse result `Line`: either the
    JSON parser fails (`badJson`), or it yields an object with optional
    `query` / `response` / `weight` fields (`json r`).  Top-level JSON values
    that are not objects are outside the model.
  * Python exceptions that the script leaves uncaught are modelled with
    `Except PyError`.
  * External library behaviour that the script merely configures (the
    HuggingFace tokenizer call, torch's WeightedRandomSampler) is embedded from
    the documented contract of the call exactly as configured at the call site;
    each such definition says so in its doc comment.
-/
import Mathlib

set_option autoImplicit false

namespace TrainLora

/-- A JSON scalar as it can appear in the optional `weight` field: a number
(rational model of a Python float) or a non-numeric JSON value. -/
inductive JVal where
  | num (q : ℚ)
  | str (s : String)
  deriving DecidableEq, Repr

/-- Is this JSON value a number?  (Python comparisons/arithmetic on anything
else raise `TypeError`.) -/
def JVal.isNum : JVal → Bool
  | .num _ => true
  | .str _ => false

/-- Extract the numeric payload of a JSON value, if any. -/
def JVal.asNum : JVal → Option ℚ
  | .num q => some q
  | .str _ => none

/-- A parsed training record: the fields of the JSON object that
`train_lora.py` reads (`query`, `response`, optional `weight`, line 116 and
lines 57/127). -/
structure Record where
  query : Option String
  response : Option String
  weight : Option JVal
  deriving DecidableEq, Repr

/-- The parse result of one line of the queue file: `json.loads` fails
(`badJson`) or yields an object (`json r`), lines 114-122. -/
inductive Line where
  | badJson
  | json (r : Record)
  deriving DecidableEq, Repr, Inhabited

/-- The two warning branches of the loader loop: invalid JSON (line 121) and a
missing `query`/`response` field (line 117). -/
inductive WarnKind where
  | invalidJson
  | missingField
  deriving DecidableEq, Repr

/-- A warning emitted by the loader; the Python messages interpolate the
1-based line number, which is the datum the claims are about. -/
structure Warning where
  lineNum : Nat
  kind : WarnKind
  deriving DecidableEq, Repr

/-- Does the loader skip this line?  (`json.loads` failure, or the field check
`"query" not in example or "response" not in example` at line 116.) -/
def lineBad : Line → Bool
  | .badJson => true
  | .json r => r.query.isNone || r.response.isNone

/-- The loader loop of `load_training_examples` (lines 110-122):
`enumerate(f, 1)` with per-line skip-and-warn.  `n` is the number of the next
line. -/
def parseLinesAux : Nat → List Line → List Record × List Warning
  | _, [] => ([], [])
  | n, l :: rest =>
    let p := parseLinesAux (n + 1) rest
    match l with
    | .badJson => (p.1, ⟨n, .invalidJson⟩ :: p.2)
    | .json r =>
      if r.query.isNone || r.response.isNone then
        (p.1, ⟨n, .missingField⟩ :: p.2)
      else
        (r :: p.1, p.2)

/-- Lines are numbered from 1 (`enumerate(f, 1)`, line 112). -/
def parseLines (lines : List Line) : List Record × List Warning :=
  parseLinesAux 1 lines

/-- `ex.get("weight", 1.0)` (lines 57 and 127): a missing key defaults to 1.0,
a present value is returned unchanged, whatever it is. -/
def getWeight (r : Record) : JVal :=
  r.weight.getD (.num 1)

/-- Python exceptions the script can leave uncaught in the loader:
`min()`/`max()` on an empty sequence raise `ValueError`, comparisons between a
number and a non-number raise `TypeError`. -/
inductive PyError where
  | valueError
  | typeError
  deriving DecidableEq, Repr

/-- Python's `min(list)` on a nonempty list: fold of the binary minimum over
the tail, starting from the head. -/
def qmin : List ℚ → ℚ
  | [] => 0
  | x :: xs => xs.foldl min x

/-- Python's `max(list)` on a nonempty list. -/
def qmax : List ℚ → ℚ
  | [] => 0
  | x :: xs => xs.foldl max x

/-- The values printed by the weight-distribution block (lines 128-134). -/
structure Summary where
  minW : ℚ
  maxW : ℚ
  meanW : ℚ
  highCount : Nat
  medCount : Nat
  normalCount : Nat
  deriving DecidableEq, Repr

/-- The weight-distribution block of `load_training_examples` (lines 127-134).
`min(weights)` is evaluated first: on an empty list it raises `ValueError`; on
a list containing a non-number it raises `TypeError`.  Otherwise min, max,
mean (`sum/len`) and the three bucket counts (`>= 10`, `3 <= w < 10`, `< 3`)
are computed. -/
def summarize (weights : List JVal) : Except PyError Summary :=
  match weights with
  | [] => .error .valueError
  | _ =>
    if weights.all JVal.isNum then
      let ws : List ℚ := weights.filterMap JVal.asNum
      .ok
        { minW := qmin ws
          maxW := qmax ws
          meanW := ws.sum / (ws.length : ℚ)
          highCount := (ws.filter (fun w => 10 ≤ w)).length
          medCount := (ws.filter (fun w => 3 ≤ w ∧ w < 10)).length
          normalCount := (ws.filter (fun w => w < 3)).length }
    else
      .error .typeError

/-- `load_training_examples` (lines 108-136): parse the lines skipping bad
ones with a warning, then print the weight-distribution summary (which raises
on an empty record list), then return the records. -/
def load_training_examples (lines : List Line) :
    Except PyError (List Record × Summary × List Warning) :=
  let examples := (parseLines lines).1
  let warnings := (parseLines lines).2
  match summarize (examples.map getWeight) with
  | .error e => .error e
  | .ok s => .ok (examples, s, warnings)

/-- `self.weights = [ex.get("weight", 1.0) for ex in examples]`
(`WeightedExampleDataset.__init__`, line 57). -/
def buildWeights (examples : List Record) : List JVal :=
  examples.map getWeight

/-! ### Tensors and the adapter exporter (`export_adapter`, lines 198-217) -/

/-- Where a tensor's storage lives. -/
inductive Device where
  | cpu
  | cuda
  deriving DecidableEq, Repr

/-- A torch tensor, reduced to the attributes `export_adapter` reads or
changes: shape, values, device, autograd flag. -/
structure Tensor where
  shape : List Nat
  data : List ℚ
  device : Device
  requiresGrad : Bool
  deriving DecidableEq, Repr

/-- `param.detach()`: a tensor with the same values, outside the autograd
graph. -/
def Tensor.detach (t : Tensor) : Tensor :=
  { t with requiresGrad := false }

/-- `.cpu()`: the same values in host memory. -/
def Tensor.toCpu (t : Tensor) : Tensor :=
  { t with device := .cpu }

/-- Python's `pat in s` on strings: does `pat` occur as a contiguous
substring of `s`? -/
def containsSub (pat : List Char) : List Char → Bool
  | [] => pat.isEmpty
  | c :: cs => pat.isPrefixOf (c :: cs) || containsSub pat cs

/-- ASCII model of Python's `str.lower` on one character (parameter names
are ASCII identifiers). -/
def lowerChar (c : Char) : Char :=
  if c.isUpper then Char.ofNat (c.toNat + 32) else c

/-- `"lora" in name.lower()` (line 205): case-insensitive substring test for
the adaptation-layer marker. -/
def hasLoraMarker (name : String) : Bool :=
  containsSub "lora".toList (name.toList.map lowerChar)

/-- A model as `export_adapter` sees it: its `named_parameters()` list. -/
structure Model where
  params : List (String × Tensor)
  deriving DecidableEq, Repr

/-- The dictionary built by the loop of `export_adapter` (lines 203-206):
for each named parameter whose name contains the marker,
`adapter_state_dict[name] = param.detach().cpu()`. -/
def export_adapter (params : List (String × Tensor)) : List (String × Tensor) :=
  (params.filter (fun p => hasLoraMarker p.1)).map (fun p => (p.1, p.2.detach.toCpu))

/-- `export_adapter` as a state transformer on the model: the Python code only
reads the model (`named_parameters`, `detach`, `cpu` all return fresh
tensors), so the embedding threads the model through unchanged and pairs it
with the exported dictionary. -/
def export_adapter_run (m : Model) : Model × List (String × Tensor) :=
  (m, export_adapter m.params)

/-! ### Tokenization (`WeightedExampleDataset.__init__`, lines 60-90) -/

/-- The fixed system prompt of the chat built at lines 64-68. -/
def systemPrompt : String := "You are Qwen, a helpful AI assistant."

/-- One turn of the chat list built at lines 64-68. -/
structure ChatTurn where
  role : String
  content : String
  deriving DecidableEq, Repr

/-- The 3-turn conversation of lines 64-68 for a record with query `q` and
response `r`. -/
def buildChat (q r : String) : List ChatTurn :=
  [⟨"system", systemPrompt⟩, ⟨"user", q⟩, ⟨"assistant", r⟩]

/-- The tokenizer capability the dataset builder uses, reduced to the three
pieces the claims depend on: rendering a chat to text
(`apply_chat_template`, lines 71-75), turning text into raw token ids, and
the id used for padding.  The rendering and raw encoding are external library
behaviour and stay abstract. -/
structure Tokenizer where
  template : List ChatTurn → String
  encodeRaw : String → List Nat
  padId : Nat

/-- Modelled from the documented contract of the HuggingFace tokenizer call
at lines 78-84 as configured there (`truncation=True`,
`max_length=maxLength`, `padding="max_length"`): the raw token ids are
truncated to at most `maxLength`, then padded with the pad id up to exactly
`maxLength`; the attention mask is 1 on real tokens and 0 on padding.
Returns `(input_ids, attention_mask)`. -/
def encodeText (tk : Tokenizer) (maxLength : Nat) (text : String) :
    List Nat × List Nat :=
  let t := (tk.encodeRaw text).take maxLength
  (t ++ List.replicate (maxLength - t.length) tk.padId,
   List.replicate t.length 1 ++ List.replicate (maxLength - t.length) 0)

/-- The default `max_length` of `WeightedExampleDataset.__init__` (line 51). -/
def defaultMaxLength : Nat := 512

/-- A heap of tensor storages, to express which tensors share storage: a
reference is an index into the heap.  This is the minimal state needed to
state that `labels` is a fresh copy of `input_ids` (line 89). -/
structure Store where
  tensors : List (List Nat)
  deriving DecidableEq, Repr

/-- Read the storage a reference points to. -/
def Store.get (s : Store) (r : Nat) : List Nat :=
  s.tensors.getD r []

/-- Overwrite the storage a reference points to (an in-place tensor
mutation). -/
def Store.set (s : Store) (r : Nat) (v : List Nat) : Store :=
  ⟨s.tensors.set r v⟩

/-- Allocate fresh storage holding `v`; returns the new heap and the new
reference. -/
def Store.alloc (s : Store) (v : List Nat) : Store × Nat :=
  (⟨s.tensors ++ [v]⟩, s.tensors.length)

/-- The three tensor references of one entry of `self.tokenized_examples`
(lines 86-90). -/
structure TokRef where
  input_ids : Nat
  attention_mask : Nat
  labels : Nat
  deriving DecidableEq, Repr

/-- Building one entry of `self.tokenized_examples` (lines 62-90): render the
chat of the record through the template, encode it, store `input_ids` and
`attention_mask`, and store `labels` as a fresh copy (`.clone()`, line 89) of
the `input_ids` storage. -/
def buildEntry (tk : Tokenizer) (maxLength : Nat) (s : Store) (q r : String) :
    Store × TokRef :=
  let text := tk.template (buildChat q r)
  let e := encodeText tk maxLength text
  let a1 := s.alloc e.1
  let a2 := a1.1.alloc e.2
  let a3 := a2.1.alloc (a2.1.get a1.2)
  (a3.1, ⟨a1.2, a2.2, a3.2⟩)

/-! ### The weighted sampler (`get_weighted_sampler`, lines 98-105) -/

/-- The constructor arguments `get_weighted_sampler` passes to torch's
`WeightedRandomSampler` (lines 101-105). -/
structure SamplerConfig where
  weights : List JVal
  num_samples : Nat
  replacement : Bool
  deriving DecidableEq, Repr

/-- `get_weighted_sampler` on a dataset built from `examples`:
`weights=self.weights`, `num_samples=len(self.examples)`,
`replacement=True`. -/
def get_weighted_sampler (examples : List Record) : SamplerConfig :=
  { weights := buildWeights examples
    num_samples := examples.length
    replacement := true }

/-- Modelled from the documented contract of torch's `WeightedRandomSampler`:
a single draw from weights `ws` selects index `i` with probability
`ws[i] / sum(ws)`. -/
def drawProb (ws : List ℚ) (i : Nat) : ℚ :=
  ws.getD i 0 / ws.sum

/-! ### The `main` flow relevant to the zero-valid-records path
(lines 245-251 and onwards) -/

/-- How a run can end, as far as the loader/export claims are concerned. -/
inductive RunResult where
  /-- An exception escapes: traceback, nonzero exit, no output file. -/
  | uncaughtError (e : PyError)
  /-- The distinct diagnostic `"Error: No valid examples found in training
  queue"` followed by `sys.exit(1)` (lines 249-251). -/
  | fatalNoValidExamples
  /-- Training ran and the adapter dictionary was written. -/
  | completed (adapter : List (String × Tensor))
  deriving DecidableEq, Repr

/-- The `main` control flow from loading the queue to exporting the adapter
(lines 247-300), with training treated as the identity on the parameter list
it returns (training internals are out of scope; only which branch is taken
matters to the claims). -/
def runMain (lines : List Line) (modelParams : List (String × Tensor)) :
    RunResult :=
  match load_training_examples lines with
  | .error e => .uncaughtError e
  | .ok (examples, _, _) =>
    if examples.length = 0 then .fatalNoValidExamples
    else .completed (export_adapter modelParams)

/-! ### Concrete inputs used to instantiate the theorems -/

/-- A record carrying weight 5, as in the spec's end-to-end example. -/
def rec5 : Record := ⟨some "q", some "r", some (.num 5)⟩

/-- A record with no `weight` key (effective weight 1.0). -/
def rec1 : Record := ⟨some "q", some "r", none⟩

/-- A record with a negative `weight`. -/
def recNeg : Record := ⟨some "q", some "r", some (.num (-1))⟩

/-- A record whose `weight` is a JSON string, not a number. -/
def recStr : Record := ⟨some "q", some "r", some (.str "x")⟩

/-- A record missing the required `query` field. -/
def recNoQ : Record := ⟨none, some "r", none⟩

/-- The spec's end-to-end example: one weight-5 record plus nine
default-weight records. -/
def lines10 : List Line := .json rec5 :: List.replicate 9 (.json rec1)

/-- A small queue: one good line, one malformed-JSON line, one line missing
`query`. -/
def wlines : List Line := [.json rec1, .badJson, .json recNoQ]

/-- What the loader produces on `lines10`: ten records, the summary of the
spec's example (min 1, max 5, mean 1.4, zero high, one medium, nine normal),
no warnings. -/
def out10 : List Record × Summary × List Warning :=
  (rec5 :: List.replicate 9 rec1, ⟨1, 5, 7/5, 0, 1, 9⟩, [])

/-- The effective numeric weights of `lines10`. -/
def qs10 : List ℚ := [5, 1, 1, 1, 1, 1, 1, 1, 1, 1]

/-- What the loader produces on `wlines`: one record, the trivial summary of
the single default weight, and one warning per skipped line. -/
def wout : List Record × Summary × List Warning :=
  ([rec1], ⟨1, 1, 1, 0, 0, 1⟩, [⟨2, .invalidJson⟩, ⟨3, .missingField⟩])

/-- Three records with weights 10, 1, 1, the spec's sampler example. -/
def ex3 : List Record :=
  [⟨some "a", some "b", some (.num 10)⟩,
   ⟨some "a", some "b", some (.num 1)⟩,
   ⟨some "a", some "b", some (.num 1)⟩]

/-- A two-parameter model: one adaptation-layer parameter, one base
parameter. -/
def m0 : Model :=
  ⟨[("layers.0.self_attn.q_proj.lora_A.weight", ⟨[2], [1, 3], .cuda, true⟩),
    ("model.embed_tokens.weight", ⟨[2], [4, 7], .cuda, true⟩)]⟩

/-! ## Lemmas about the loader loop -/

theorem parseLinesAux_length :
    ∀ (n : Nat) (lines : List Line),
      (parseLinesAux n lines).1.length + (parseLinesAux n lines).2.length
        = lines.length
  | _, [] => rfl
  | n, .badJson :: rest => by
    have ih := parseLinesAux_length (n + 1) rest
    simp only [parseLinesAux, List.length_cons]
    omega
  | n, .json r :: rest => by
    have ih := parseLinesAux_length (n + 1) rest
    cases h : (r.query.isNone || r.response.isNone) <;>
      simp only [parseLinesAux, h, if_true, if_false, List.length_cons,
        Bool.false_eq_true, List.length] <;>
      omega

theorem parseLinesAux_warnCount :
    ∀ (n : Nat) (lines : List Line),
      (parseLinesAux n lines).2.length = (lines.filter lineBad).length
  | _, [] => rfl
  | n, .badJson :: rest => by
    have ih := parseLinesAux_warnCount (n + 1) rest
    simp only [parseLinesAux, lineBad, List.filter_cons, List.length_cons,
      if_true]
    omega
  | n, .json r :: rest => by
    have ih := parseLinesAux_warnCount (n + 1) rest
    cases h : (r.query.isNone || r.response.isNone) <;>
      simp only [parseLinesAux, lineBad, List.filter_cons, h, if_true,
        if_false, Bool.false_eq_true, List.length_cons] <;>
      omega

theorem parseLinesAux_warn_mem :
    ∀ (n : Nat) (lines : List Line), ∀ w ∈ (parseLinesAux n lines).2,
      n ≤ w.lineNum ∧ w.lineNum < n + lines.length ∧
        lineBad (lines.getD (w.lineNum - n) default) = true
  | _, [], w, hw => by simp [parseLinesAux] at hw
  | n, .badJson :: rest, w, hw => by
    simp only [parseLinesAux, List.mem_cons] at hw
    rcases hw with h | h
    · subst h
      refine ⟨le_refl n, by simp, ?_⟩
      simp [lineBad]
    · have ih := parseLinesAux_warn_mem (n + 1) rest w h
      have hstep : w.lineNum - n = (w.lineNum - (n + 1)) + 1 := by omega
      refine ⟨by omega, by simp only [List.length_cons]; omega, ?_⟩
      rw [hstep, List.getD_cons_succ]
      exact ih.2.2
  | n, .json r :: rest, w, hw => by
    cases h : (r.query.isNone || r.response.isNone) with
    | true =>
      simp only [parseLinesAux, h, if_true, List.mem_cons] at hw
      rcases hw with h2 | h2
      · subst h2
        refine ⟨le_refl n, by simp, ?_⟩
        simp [lineBad, h]
      · have ih := parseLinesAux_warn_mem (n + 1) rest w h2
        have hstep : w.lineNum - n = (w.lineNum - (n + 1)) + 1 := by omega
        refine ⟨by omega, by simp only [List.length_cons]; omega, ?_⟩
        rw [hstep, List.getD_cons_succ]
        exact ih.2.2
    | false =>
      simp only [parseLinesAux, h, Bool.false_eq_true, if_false] at hw
      have ih := parseLinesAux_warn_mem (n + 1) rest w hw
      have hstep : w.lineNum - n = (w.lineNum - (n + 1)) + 1 := by omega
      refine ⟨by omega, by simp only [List.length_cons]; omega, ?_⟩
      rw [hstep, List.getD_cons_succ]
      exact ih.2.2

/-- Unpacking a successful run of the loader: the records and warnings are
those of the parse loop, and the summary block succeeded on the effective
weights. -/
theorem load_ok_elim (lines : List Line)
    (out : List Record × Summary × List Warning)
    (h : load_training_examples lines = .ok out) :
    out.1 = (parseLines lines).1 ∧ out.2.2 = (parseLines lines).2 ∧
      summarize ((parseLines lines).1.map getWeight) = .ok out.2.1 := by
  unfold load_training_examples at h
  cases hs : summarize ((parseLines lines).1.map getWeight) with
  | error e => simp only [hs] at h; cases h
  | ok s =>
    simp only [hs, Except.ok.injEq] at h
    cases h
    exact ⟨rfl, rfl, rfl⟩

/-- Unpacking a successful run of the summary block: the weight list was
nonempty and all-numeric, and the summary fields are as computed at lines
128-134. -/
theorem summarize_ok_elim (ws : List JVal) (s : Summary)
    (h : summarize ws = .ok s) :
    ws ≠ [] ∧ ws.all JVal.isNum = true ∧
      s = { minW := qmin (ws.filterMap JVal.asNum)
            maxW := qmax (ws.filterMap JVal.asNum)
            meanW := (ws.filterMap JVal.asNum).sum /
              ((ws.filterMap JVal.asNum).length : ℚ)
            highCount := ((ws.filterMap JVal.asNum).filter
              (fun w => 10 ≤ w)).length
            medCount := ((ws.filterMap JVal.asNum).filter
              (fun w => 3 ≤ w ∧ w < 10)).length
            normalCount := ((ws.filterMap JVal.asNum).filter
              (fun w => w < 3)).length } := by
  cases ws with
  | nil => cases h
  | cons v vs =>
    unfold summarize at h
    by_cases hall : (v :: vs).all JVal.isNum = true
    · rw [if_pos hall] at h
      cases h
      exact ⟨by simp, hall, rfl⟩
    · rw [if_neg (by simpa using hall)] at h
      cases h

theorem filterMap_asNum_length :
    ∀ (ws : List JVal), ws.all JVal.isNum = true →
      (ws.filterMap JVal.asNum).length = ws.length
  | [], _ => rfl
  | .num q :: vs, h => by
    have ih := filterMap_asNum_length vs (by simpa [JVal.isNum] using h)
    simp [List.filterMap_cons, JVal.asNum, ih]
  | .str t :: vs, h => by
    simp [JVal.isNum] at h

/-! ## Lemmas about Python `min`/`max` of a nonempty list -/

theorem foldl_min_le_init :
    ∀ (xs : List ℚ) (a : ℚ), xs.foldl min a ≤ a
  | [], _ => le_refl _
  | y :: ys, a => le_trans (foldl_min_le_init ys (min a y)) (min_le_left a y)

theorem foldl_min_le_mem :
    ∀ (xs : List ℚ) (a : ℚ), ∀ q ∈ xs, xs.foldl min a ≤ q
  | y :: ys, a, q, hq => by
    rcases List.mem_cons.mp hq with h | h
    · subst h
      exact le_trans (foldl_min_le_init ys (min a q)) (min_le_right a q)
    · exact foldl_min_le_mem ys (min a y) q h

theorem foldl_min_mem :
    ∀ (xs : List ℚ) (a : ℚ), xs.foldl min a = a ∨ xs.foldl min a ∈ xs
  | [], _ => Or.inl rfl
  | y :: ys, a => by
    rcases foldl_min_mem ys (min a y) with h | h
    · rcases min_choice a y with hc | hc
      · exact Or.inl (by rw [List.foldl_cons, h, hc])
      · exact Or.inr (by rw [List.foldl_cons, h, hc]; exact List.mem_cons_self y ys)
    · exact Or.inr (List.mem_cons_of_mem y h)

theorem foldl_max_init_le :
    ∀ (xs : List ℚ) (a : ℚ), a ≤ xs.foldl max a
  | [], _ => le_refl _
  | y :: ys, a => le_trans (le_max_left a y) (foldl_max_init_le ys (max a y))

theorem foldl_max_mem_le :
    ∀ (xs : List ℚ) (a : ℚ), ∀ q ∈ xs, q ≤ xs.foldl max a
  | y :: ys, a, q, hq => by
    rcases List.mem_cons.mp hq with h | h
    · subst h
      exact le_trans (le_max_right a q) (foldl_max_init_le ys (max a q))
    · exact foldl_max_mem_le ys (max a y) q h

theorem foldl_max_mem :
    ∀ (xs : List ℚ) (a : ℚ), xs.foldl max a = a ∨ xs.foldl max a ∈ xs
  | [], _ => Or.inl rfl
  | y :: ys, a => by
    rcases foldl_max_mem ys (max a y) with h | h
    · rcases max_choice a y with hc | hc
      · exact Or.inl (by rw [List.foldl_cons, h, hc])
      · exact Or.inr (by rw [List.foldl_cons, h, hc]; exact List.mem_cons_self y ys)
    · exact Or.inr (List.mem_cons_of_mem y h)

/-- `qmin` of a nonempty list is a lower bound and is attained. -/
theorem qmin_spec (qs : List ℚ) (hne : qs ≠ []) :
    (∀ q ∈ qs, qmin qs ≤ q) ∧ qmin qs ∈ qs := by
  cases qs with
  | nil => exact absurd rfl hne
  | cons x xs =>
    refine ⟨?_, ?_⟩
    · intro q hq
      rcases List.mem_cons.mp hq with h | h
      · subst h; exact foldl_min_le_init xs q
      · exact foldl_min_le_mem xs x q h
    · rcases foldl_min_mem xs x with h | h
      · simp only [qmin, h]
        exact List.mem_cons_self x xs
      · exact List.mem_cons_of_mem x h

/-- `qmax` of a nonempty list is an upper bound and is attained. -/
theorem qmax_spec (qs : List ℚ) (hne : qs ≠ []) :
    (∀ q ∈ qs, q ≤ qmax qs) ∧ qmax qs ∈ qs := by
  cases qs with
  | nil => exact absurd rfl hne
  | cons x xs =>
    refine ⟨?_, ?_⟩
    · intro q hq
      rcases List.mem_cons.mp hq with h | h
      · subst h; exact foldl_max_init_le xs q
      · exact foldl_max_mem_le xs x q h
    · rcases foldl_max_mem xs x with h | h
      · simp only [qmax, h]
        exact List.mem_cons_self x xs
      · exact List.mem_cons_of_mem x h

/-! ## Claim C1 -/

/-- C1: for every model parameter list, the exported adapter mapping contains
a named parameter exactly when its name carries the case-insensitive "lora"
marker (the entry being the parameter's detached host image), so no
parameter whose name lacks the marker is present. -/
theorem c1_export_exactly_marked (params : List (String × Tensor))
    (name : String) (t : Tensor) :
    (name, t) ∈ export_adapter params ↔
      hasLoraMarker name = true ∧
        ∃ t0, (name, t0) ∈ params ∧ t = t0.detach.toCpu := by
  simp only [export_adapter, List.mem_map, List.mem_filter]
  constructor
  · rintro ⟨⟨n0, t0⟩, ⟨hmem, hmark⟩, heq⟩
    simp only [Prod.ext_iff] at heq
    obtain ⟨h1, h2⟩ := heq
    subst h1
    exact ⟨hmark, t0, hmem, h2.symm⟩
  · rintro ⟨hmark, t0, hmem, rfl⟩
    exact ⟨(name, t0), ⟨hmem, hmark⟩, rfl⟩

/-! ## Claim C2 -/

/-- C2 counterexample: on a file whose single line is malformed (N = 1,
K = 1), the claim says the loader returns 0 records and 1 warning without a
fatal stop; instead `min(weights)` on the empty effective-weight list raises
an uncaught `ValueError`, so the loader returns nothing. -/
theorem c2_counterexample :
    load_training_examples [Line.badJson] = .error .valueError := rfl

/-- C2 (amended): whenever the loader returns (it does not when no valid
record remains, or when a retained weight is non-numeric — see the
counterexample), it returns exactly N − K records and exactly K warnings,
K being the number of malformed or incomplete lines, and every warning
carries the 1-based number of an offending line. -/
theorem c2_loader_counts (lines : List Line)
    (out : List Record × Summary × List Warning)
    (h : load_training_examples lines = .ok out) :
    out.1.length + (lines.filter lineBad).length = lines.length ∧
    out.2.2.length = (lines.filter lineBad).length ∧
    ∀ w ∈ out.2.2, 1 ≤ w.lineNum ∧ w.lineNum ≤ lines.length ∧
      lineBad (lines.getD (w.lineNum - 1) default) = true := by
  obtain ⟨h1, h2, -⟩ := load_ok_elim lines out h
  have hlen := parseLinesAux_length 1 lines
  have hwc := parseLinesAux_warnCount 1 lines
  refine ⟨?_, ?_, ?_⟩
  · rw [h1]
    simp only [parseLines] at *
    omega
  · rw [h2]
    simpa [parseLines] using hwc
  · intro w hw
    rw [h2] at hw
    have hm := parseLinesAux_warn_mem 1 lines w (by simpa [parseLines] using hw)
    exact ⟨hm.1, by omega, hm.2.2⟩

/-- C2 witness: the amended statement evaluated on a 3-line queue with one
good line, one malformed line and one line missing `query`. -/
theorem c2_witness :
    wout.1.length + (wlines.filter lineBad).length = wlines.length ∧
    wout.2.2.length = (wlines.filter lineBad).length ∧
    ∀ w ∈ wout.2.2, 1 ≤ w.lineNum ∧ w.lineNum ≤ wlines.length ∧
      lineBad (wlines.getD (w.lineNum - 1) default) = true :=
  c2_loader_counts wlines wout (by
    norm_num [load_training_examples, parseLines, parseLinesAux, summarize,
      getWeight, qmin, qmax, wlines, wout, rec1, recNoQ, JVal.isNum,
      JVal.asNum, List.filterMap, List.filter, List.foldl])

/-! ## Claim C3 -/

/-- C3: code bug.  On an empty or fully-invalid queue the run does exit
nonzero with no output file, but not through the distinct zero-valid-records
diagnostic of lines 249-251: `min(weights)` at line 129 raises an uncaught
`ValueError` first.  First conjunct: the empty queue ends as an uncaught
`ValueError`.  Second conjunct: the zero-valid-records branch is unreachable
for every input. -/
theorem c3_zero_valid_diagnostic_unreachable :
    (∀ mp : List (String × Tensor),
      runMain [] mp = .uncaughtError .valueError) ∧
    (∀ (lines : List Line) (mp : List (String × Tensor)),
      runMain lines mp ≠ .fatalNoValidExamples) := by
  constructor
  · intro mp
    rfl
  · intro lines mp hcontra
    unfold runMain at hcontra
    cases hload : load_training_examples lines with
    | error e =>
      rw [hload] at hcontra
      cases hcontra
    | ok out =>
      obtain ⟨exs, s, warns⟩ := out
      rw [hload] at hcontra
      have hne : exs ≠ [] := by
        obtain ⟨h1, -, hsum⟩ := load_ok_elim lines (exs, s, warns) hload
        obtain ⟨hne2, -, -⟩ := summarize_ok_elim _ _ hsum
        intro hnil
        apply hne2
        have : exs = (parseLines lines).1 := h1
        rw [← this, hnil]
        rfl
      cases exs with
      | nil => exact absurd rfl hne
      | cons e es =>
        simp only [List.length_cons] at hcontra
        rw [if_neg (by omega)] at hcontra
        cases hcontra

/-! ## Claim C4 -/

/-- C4 counterexample: the weight table built by the dataset is not all
positive — a record with weight −1 puts −1 in the table — and an invalid
(non-numeric) weight is not defaulted to 1.0 but passed through. -/
theorem c4_counterexample :
    (¬ ∀ w ∈ buildWeights [recNeg], ∃ q, w = JVal.num q ∧ 0 < q) ∧
    buildWeights [recStr] = [JVal.str "x"] := by
  refine ⟨?_, rfl⟩
  intro h
  obtain ⟨q, hq, hpos⟩ :=
    h (JVal.num (-1)) (by simp [buildWeights, getWeight, recNeg])
  injection hq with hq'
  rw [← hq'] at hpos
  norm_num at hpos

/-- C4 (amended): the weight table assigns 1.0 to every record whose `weight`
key is missing, and passes a present `weight` value through unchanged —
whether or not it is numeric or positive. -/
theorem c4_weight_table (examples : List Record) (i : Nat)
    (h : i < examples.length) :
    ((examples.getD i ⟨none, none, none⟩).weight = none →
      (buildWeights examples).getD i (.num 0) = JVal.num 1) ∧
    ∀ v, (examples.getD i ⟨none, none, none⟩).weight = some v →
      (buildWeights examples).getD i (.num 0) = v := by
  have key : (buildWeights examples).getD i (.num 0) =
      getWeight (examples.getD i ⟨none, none, none⟩) := by
    rw [List.getD_eq_getElem?_getD, List.getD_eq_getElem?_getD, buildWeights,
      List.getElem?_map]
    cases hx : examples[i]? with
    | none =>
      exact absurd (List.getElem?_eq_none_iff.mp hx) (by omega)
    | some a => rfl
  refine ⟨?_, ?_⟩
  · intro hnone
    rw [key, getWeight, hnone]
    rfl
  · intro v hv
    rw [key, getWeight, hv]
    rfl

/-- C4 witness: the amended statement at a record with no `weight` key. -/
theorem c4_witness :
    (([rec1, rec5].getD 0 ⟨none, none, none⟩).weight = none →
      (buildWeights [rec1, rec5]).getD 0 (.num 0) = JVal.num 1) ∧
    ∀ v, (([rec1, rec5]).getD 0 ⟨none, none, none⟩).weight = some v →
      (buildWeights [rec1, rec5]).getD 0 (.num 0) = v :=
  c4_weight_table [rec1, rec5] 0 (by norm_num)

/-! ## Claim C7 -/

/-- C7: on every successful load, the printed summary buckets the effective
weights as high iff w ≥ 10, medium iff 3 ≤ w < 10, normal iff w < 3, and
its min/max are exact (attained lower/upper bounds of the weights) and its
mean is the exact arithmetic mean (mean · count = sum). -/
theorem c7_summary (lines : List Line)
    (out : List Record × Summary × List Warning) (qs : List ℚ)
    (h : load_training_examples lines = .ok out)
    (hqs : qs = (buildWeights out.1).filterMap JVal.asNum) :
    out.2.1.highCount = (qs.filter (fun w => 10 ≤ w)).length ∧
    out.2.1.medCount = (qs.filter (fun w => 3 ≤ w ∧ w < 10)).length ∧
    out.2.1.normalCount = (qs.filter (fun w => w < 3)).length ∧
    (∀ q ∈ qs, out.2.1.minW ≤ q ∧ q ≤ out.2.1.maxW) ∧
    out.2.1.minW ∈ qs ∧ out.2.1.maxW ∈ qs ∧
    out.2.1.meanW * (qs.length : ℚ) = qs.sum := by
  obtain ⟨h1, -, hsum⟩ := load_ok_elim lines out h
  obtain ⟨hne, hall, hs⟩ := summarize_ok_elim _ _ hsum
  have hqs' : qs = ((parseLines lines).1.map getWeight).filterMap JVal.asNum := by
    rw [hqs, buildWeights, h1]
  have hqne : qs ≠ [] := by
    intro hnil
    apply hne
    have hlen := filterMap_asNum_length _ hall
    rw [← hqs', hnil] at hlen
    exact List.length_eq_zero.mp hlen.symm
  rw [← hqs'] at hs
  refine ⟨by rw [hs], by rw [hs], by rw [hs], ?_, ?_, ?_, ?_⟩
  · intro q hq
    exact ⟨by rw [hs]; exact (qmin_spec qs hqne).1 q hq,
      by rw [hs]; exact (qmax_spec qs hqne).1 q hq⟩
  · rw [hs]
    exact (qmin_spec qs hqne).2
  · rw [hs]
    exact (qmax_spec qs hqne).2
  · rw [hs]
    have hlen0 : (qs.length : ℚ) ≠ 0 := by
      have : qs.length ≠ 0 := fun hc => hqne (List.length_eq_zero.mp hc)
      exact_mod_cast this
    exact div_mul_cancel₀ qs.sum hlen0

/-- C7 witness: the spec's end-to-end example — one weight-5 record plus nine
default-weight records gives mean exactly 1.4, zero high-bucket records and
one medium-bucket record. -/
theorem c7_witness :
    (out10.2.1.highCount = (qs10.filter (fun w => 10 ≤ w)).length ∧
    out10.2.1.medCount = (qs10.filter (fun w => 3 ≤ w ∧ w < 10)).length ∧
    out10.2.1.normalCount = (qs10.filter (fun w => w < 3)).length ∧
    (∀ q ∈ qs10, out10.2.1.minW ≤ q ∧ q ≤ out10.2.1.maxW) ∧
    out10.2.1.minW ∈ qs10 ∧ out10.2.1.maxW ∈ qs10 ∧
    out10.2.1.meanW * (qs10.length : ℚ) = qs10.sum) ∧
    out10.2.1.meanW = 7 / 5 ∧ out10.2.1.highCount = 0 ∧
    out10.2.1.medCount = 1 :=
  ⟨c7_summary lines10 out10 qs10
    (by
      norm_num [load_training_examples, parseLines, parseLinesAux, summarize,
        getWeight, qmin, qmax, lines10, out10, rec5, rec1, JVal.isNum,
        JVal.asNum, List.replicate, List.filterMap, List.filter, List.foldl,
        List.sum_cons, min_def, max_def])
    (by
      simp [qs10, out10, buildWeights, getWeight, rec5, rec1,
        List.replicate, List.filterMap, JVal.asNum]),
   rfl, rfl, rfl⟩

/-! ## Claim C10 -/

theorem filter_three_partition (qs : List ℚ) :
    (qs.filter (fun w => 10 ≤ w)).length +
      (qs.filter (fun w => 3 ≤ w ∧ w < 10)).length +
      (qs.filter (fun w => w < 3)).length = qs.length := by
  induction qs with
  | nil => rfl
  | cons x xs ih =>
    rcases lt_or_le x 3 with hc | hc
    · simp [List.filter_cons, show ¬ (10 ≤ x) from by linarith,
        show ¬ (3 ≤ x ∧ x < 10) from fun hx => by linarith [hx.1], hc] at ih ⊢
      omega
    · rcases lt_or_le x 10 with hc2 | hc2
      · simp [List.filter_cons, show ¬ (10 ≤ x) from by linarith,
          show (3 ≤ x ∧ x < 10) from ⟨hc, hc2⟩,
          show ¬ (x < 3) from by linarith] at ih ⊢
        omega
      · simp [List.filter_cons, show (10 ≤ x) from hc2,
          show ¬ (3 ≤ x ∧ x < 10) from fun hx => by linarith [hx.2],
          show ¬ (x < 3) from by linarith] at ih ⊢
        omega

/-- C10: on every successful load (all effective weights numeric), the three
bucket counts partition the records — each weight, zero and negative values
included, falls in exactly one bucket and the counts sum to the number of
records. -/
theorem c10_bucket_partition (lines : List Line)
    (out : List Record × Summary × List Warning)
    (h : load_training_examples lines = .ok out) :
    out.2.1.highCount + out.2.1.medCount + out.2.1.normalCount
      = out.1.length ∧
    ∀ w : ℚ, w ∈ (buildWeights out.1).filterMap JVal.asNum →
      ((10 ≤ w ∧ ¬(3 ≤ w ∧ w < 10) ∧ ¬(w < 3)) ∨
       (¬(10 ≤ w) ∧ (3 ≤ w ∧ w < 10) ∧ ¬(w < 3)) ∨
       (¬(10 ≤ w) ∧ ¬(3 ≤ w ∧ w < 10) ∧ (w < 3))) := by
  obtain ⟨h1, -, hsum⟩ := load_ok_elim lines out h
  obtain ⟨-, hall, hs⟩ := summarize_ok_elim _ _ hsum
  constructor
  · have e : out.2.1.highCount + out.2.1.medCount + out.2.1.normalCount =
        (((parseLines lines).1.map getWeight).filterMap JVal.asNum).length := by
      rw [hs]
      exact filter_three_partition _
    rw [e, filterMap_asNum_length _ hall, List.length_map, h1]
  · intro w _
    rcases lt_or_le w 3 with hc | hc
    · exact Or.inr (Or.inr ⟨by linarith, fun hx => by linarith [hx.1], hc⟩)
    · rcases lt_or_le w 10 with hc2 | hc2
      · exact Or.inr (Or.inl ⟨by linarith, ⟨hc, hc2⟩, by linarith⟩)
      · exact Or.inl ⟨hc2, fun hx => by linarith [hx.2], by linarith⟩

/-- C10 witness: the partition property evaluated on the ten-record example,
with the single weight-5 record exhibited in its unique (medium) bucket. -/
theorem c10_witness :
    (out10.2.1.highCount + out10.2.1.medCount + out10.2.1.normalCount
      = out10.1.length) ∧
    ((10 ≤ (5 : ℚ) ∧ ¬(3 ≤ (5 : ℚ) ∧ (5 : ℚ) < 10) ∧ ¬((5 : ℚ) < 3)) ∨
     (¬(10 ≤ (5 : ℚ)) ∧ (3 ≤ (5 : ℚ) ∧ (5 : ℚ) < 10) ∧ ¬((5 : ℚ) < 3)) ∨
     (¬(10 ≤ (5 : ℚ)) ∧ ¬(3 ≤ (5 : ℚ) ∧ (5 : ℚ) < 10) ∧ ((5 : ℚ) < 3))) := by
  have h := c10_bucket_partition lines10 out10
    (by
      norm_num [load_training_examples, parseLines, parseLinesAux, summarize,
        getWeight, qmin, qmax, lines10, out10, rec5, rec1, JVal.isNum,
        JVal.asNum, List.replicate, List.filterMap, List.filter, List.foldl,
        List.sum_cons, min_def, max_def])
  refine ⟨h.1, h.2 5 ?_⟩
  simp [out10, buildWeights, getWeight, rec5, rec1, List.replicate,
    List.filterMap, JVal.asNum]

/-! ## Lemmas about the tensor store and the tokenizer contract -/

theorem Store.get_set_ne (s : Store) (r r2 : Nat) (v : List Nat)
    (h : r ≠ r2) : (s.set r v).get r2 = s.get r2 := by
  simp [Store.set, Store.get, List.getD_eq_getElem?_getD,
    List.getElem?_set_ne h]

theorem Store.get_append_nth (l rest : List (List Nat)) (k : Nat) :
    (Store.mk (l ++ rest)).get (l.length + k) = rest.getD k [] := by
  simp [Store.get, List.getD_eq_getElem?_getD, List.getElem?_append_right]

theorem getD_append2 (l : List (List Nat)) (a b : List Nat) :
    ((l ++ [a]) ++ [b]).getD l.length [] = a := by
  rw [List.getD_append _ _ _ _ (by simp)]
  simp [List.getD_eq_getElem?_getD, List.getElem?_append_right]

/-- Both halves of the tokenizer output have length exactly `maxLength`:
truncation bounds the raw ids above, padding fills below. -/
theorem encodeText_lengths (tk : Tokenizer) (maxLength : Nat)
    (text : String) :
    ((encodeText tk maxLength text).1).length = maxLength ∧
    ((encodeText tk maxLength text).2).length = maxLength := by
  constructor <;>
    simp [encodeText, List.length_append, List.length_replicate,
      List.length_take]

theorem store3_get (l : List (List Nat)) (a b c : List Nat) :
    (Store.mk (l ++ [a, b, c])).get l.length = a ∧
    (Store.mk (l ++ [a, b, c])).get (l.length + 1) = b ∧
    (Store.mk (l ++ [a, b, c])).get (l.length + 2) = c := by
  refine ⟨?_, ?_, ?_⟩
  · simpa using Store.get_append_nth l [a, b, c] 0
  · simpa using Store.get_append_nth l [a, b, c] 1
  · simpa using Store.get_append_nth l [a, b, c] 2

/-- Unfolding one dataset entry: the final store holds the three freshly
allocated storages (ids, mask, and the labels clone of ids) after the old
ones, and the entry references point at them in order. -/
theorem buildEntry_spec (tk : Tokenizer) (maxLength : Nat) (s : Store)
    (q r : String) :
    (buildEntry tk maxLength s q r).1 =
      ⟨s.tensors ++
        [(encodeText tk maxLength (tk.template (buildChat q r))).1,
         (encodeText tk maxLength (tk.template (buildChat q r))).2,
         (encodeText tk maxLength (tk.template (buildChat q r))).1]⟩ ∧
    (buildEntry tk maxLength s q r).2 =
      ⟨s.tensors.length, s.tensors.length + 1, s.tensors.length + 2⟩ := by
  constructor
  · simp only [buildEntry, Store.alloc, Store.get, Store.mk.injEq]
    rw [getD_append2]
    simp
  · simp [buildEntry, Store.alloc, List.length_append]

/-! ## Claim C5 -/

/-- C5: every tokenized example has `input_ids`, `attention_mask` and
`labels` all of length exactly the configured maximum — truncation bounds
above, padding fills below — so all entries of a run share one sequence
length; the default maximum is 512. -/
theorem c5_fixed_length (tk : Tokenizer) (maxLength : Nat) (s : Store)
    (q r : String) :
    ((buildEntry tk maxLength s q r).1.get
        (buildEntry tk maxLength s q r).2.input_ids).length = maxLength ∧
    ((buildEntry tk maxLength s q r).1.get
        (buildEntry tk maxLength s q r).2.attention_mask).length = maxLength ∧
    ((buildEntry tk maxLength s q r).1.get
        (buildEntry tk maxLength s q r).2.labels).length = maxLength ∧
    defaultMaxLength = 512 := by
  obtain ⟨hst, href⟩ := buildEntry_spec tk maxLength s q r
  obtain ⟨hl1, hl2⟩ :=
    encodeText_lengths tk maxLength (tk.template (buildChat q r))
  obtain ⟨g0, g1, g2⟩ := store3_get s.tensors
    (encodeText tk maxLength (tk.template (buildChat q r))).1
    (encodeText tk maxLength (tk.template (buildChat q r))).2
    (encodeText tk maxLength (tk.template (buildChat q r))).1
  rw [hst, href]
  dsimp only
  exact ⟨by rw [g0]; exact hl1, by rw [g1]; exact hl2, by rw [g2]; exact hl1,
    rfl⟩

/-! ## Claim C8 -/

/-- C8: the `labels` tensor of every tokenized example is a copy of its
`input_ids` tensor — elementwise equal but distinct storage, so mutating
`labels` never changes `input_ids`. -/
theorem c8_labels_fresh_copy (tk : Tokenizer) (maxLength : Nat) (s : Store)
    (q r : String) :
    (buildEntry tk maxLength s q r).1.get
        (buildEntry tk maxLength s q r).2.labels =
      (buildEntry tk maxLength s q r).1.get
        (buildEntry tk maxLength s q r).2.input_ids ∧
    (buildEntry tk maxLength s q r).2.labels ≠
      (buildEntry tk maxLength s q r).2.input_ids ∧
    ∀ v, ((buildEntry tk maxLength s q r).1.set
          (buildEntry tk maxLength s q r).2.labels v).get
        (buildEntry tk maxLength s q r).2.input_ids =
      (buildEntry tk maxLength s q r).1.get
        (buildEntry tk maxLength s q r).2.input_ids := by
  obtain ⟨hst, href⟩ := buildEntry_spec tk maxLength s q r
  obtain ⟨g0, g1, g2⟩ := store3_get s.tensors
    (encodeText tk maxLength (tk.template (buildChat q r))).1
    (encodeText tk maxLength (tk.template (buildChat q r))).2
    (encodeText tk maxLength (tk.template (buildChat q r))).1
  rw [hst, href]
  dsimp only
  refine ⟨by rw [g2, g0], by omega, ?_⟩
  intro v
  exact Store.get_set_ne _ _ _ v (by omega)

/-! ## Claim C6 -/

theorem sum_getD_range (qs : List ℚ) :
    ∑ i ∈ Finset.range qs.length, qs.getD i 0 = qs.sum := by
  induction qs with
  | nil => simp
  | cons x xs ih =>
    rw [List.length_cons, Finset.sum_range_succ']
    simp only [List.getD_cons_succ, List.getD_cons_zero]
    rw [ih, List.sum_cons, add_comm]

/-- C6: the sampler configuration built by `get_weighted_sampler` draws with
replacement, draws as many indices as the dataset holds records, and passes
the weight table through; under the sampler contract a single draw picks
index i with probability weight i over the total weight — those
probabilities sum to 1 and each is the weight divided by the total. -/
theorem c6_sampler (examples : List Record) (qs : List ℚ)
    (hw : buildWeights examples = qs.map JVal.num)
    (hpos : ∀ x ∈ qs, 0 < x) (hne : qs ≠ []) :
    (get_weighted_sampler examples).replacement = true ∧
    (get_weighted_sampler examples).num_samples = examples.length ∧
    (get_weighted_sampler examples).weights = qs.map JVal.num ∧
    (∑ i ∈ Finset.range qs.length, drawProb qs i) = 1 ∧
    ∀ i, i < qs.length → drawProb qs i * qs.sum = qs.getD i 0 := by
  have hsum : 0 < qs.sum := List.sum_pos qs hpos hne
  refine ⟨rfl, rfl, hw, ?_, ?_⟩
  · calc ∑ i ∈ Finset.range qs.length, drawProb qs i
        = (∑ i ∈ Finset.range qs.length, qs.getD i 0) / qs.sum := by
          simp only [drawProb]
          rw [← Finset.sum_div]
      _ = qs.sum / qs.sum := by rw [sum_getD_range]
      _ = 1 := div_self (ne_of_gt hsum)
  · intro i _
    exact div_mul_cancel₀ _ (ne_of_gt hsum)

/-- C6 witness: the sampler configuration and per-draw distribution on the
three-record dataset with weights [10, 1, 1]; index 0 is drawn with
probability exactly 10/12. -/
theorem c6_witness :
    ((get_weighted_sampler ex3).replacement = true ∧
     (get_weighted_sampler ex3).num_samples = ex3.length ∧
     (get_weighted_sampler ex3).weights = [(10 : ℚ), 1, 1].map JVal.num ∧
     (∑ i ∈ Finset.range ([(10 : ℚ), 1, 1].length),
        drawProb [10, 1, 1] i) = 1 ∧
     ∀ i, i < [(10 : ℚ), 1, 1].length →
        drawProb [10, 1, 1] i * ([(10 : ℚ), 1, 1]).sum =
          ([(10 : ℚ), 1, 1]).getD i 0) ∧
    drawProb [10, 1, 1] 0 = 10 / 12 :=
  ⟨c6_sampler ex3 [10, 1, 1] rfl
      (by
        intro x hx
        rcases List.mem_cons.mp hx with h | hx
        · rw [h]; norm_num
        rcases List.mem_cons.mp hx with h | hx
        · rw [h]; norm_num
        rcases List.mem_cons.mp hx with h | hx
        · rw [h]; norm_num
        · cases hx)
      (by simp),
   by norm_num [drawProb]⟩

/-! ## Claim C9 -/

/-- C9: the adapter exporter does not modify the model — the model state it
returns is the one it was given — and every exported tensor is the detached
host-memory image of a model parameter: same values, same shape, device cpu,
outside the autograd graph. -/
theorem c9_export_frame (m : Model) :
    (export_adapter_run m).1 = m ∧
    ∀ name t, (name, t) ∈ (export_adapter_run m).2 →
      ∃ t0, (name, t0) ∈ m.params ∧ t.data = t0.data ∧ t.shape = t0.shape ∧
        t.device = .cpu ∧ t.requiresGrad = false := by
  refine ⟨rfl, ?_⟩
  intro name t hmem
  simp only [export_adapter_run, export_adapter, List.mem_map,
    List.mem_filter] at hmem
  obtain ⟨⟨n0, t0⟩, ⟨hmem0, -⟩, heq⟩ := hmem
  simp only [Prod.ext_iff] at heq
  obtain ⟨h1, h2⟩ := heq
  subst h1
  exact ⟨t0, hmem0, by rw [← h2]; rfl, by rw [← h2]; rfl, by rw [← h2]; rfl,
    by rw [← h2]; rfl⟩

/-- C9 witness: exporting the two-parameter model `m0` leaves it unchanged,
and its single exported tensor is the cpu/no-grad image of the lora
parameter. -/
theorem c9_witness :
    (export_adapter_run m0).1 = m0 ∧
    ∃ t0, ("layers.0.self_attn.q_proj.lora_A.weight", t0) ∈ m0.params ∧
      (⟨[2], [1, 3], .cpu, false⟩ : Tensor).data = t0.data ∧
      (⟨[2], [1, 3], .cpu, false⟩ : Tensor).shape = t0.shape ∧
      (⟨[2], [1, 3], .cpu, false⟩ : Tensor).device = .cpu ∧
      (⟨[2], [1, 3], .cpu, false⟩ : Tensor).requiresGrad = false :=
  ⟨(c9_export_frame m0).1,
   (c9_export_frame m0).2 "layers.0.self_attn.q_proj.lora_A.weight"
     ⟨[2], [1, 3], .cpu, false⟩
     (by
       show _ ∈ (m0.params.filter (fun p => hasLoraMarker p.1)).map
         (fun p => (p.1, p.2.detach.toCpu))
       refine List.mem_map.mpr
         ⟨("layers.0.self_attn.q_proj.lora_A.weight",
           (⟨[2], [1, 3], .cuda, true⟩ : Tensor)),
          List.mem_filter.mpr ⟨?_, ?_⟩, rfl⟩
       · simp [m0]
       · rfl)⟩

end TrainLora
